import Mathlib

/-!
Shallow embedding of `typed-builder-macro/src/util.rs`.

Modelling conventions:
* A proc-macro2 `Span` is an opaque source location, modelled as `Nat`.
* A syn/proc-macro2 `Ident` is its textual name plus its span.  (syn
  compares `Ident`s by name only; spans never participate in equality or
  hashing, which matters for the `HashSet<Ident>` of required fields.)
* A `TokenStream` is a `List Tok`, where `Tok` keeps exactly the token
  distinctions the code under verification inspects: identifiers, the
  punctuation `!`, `,`, `=`, parenthesized and bracketed groups (each kept
  verbatim as its inner token list, the way proc-macro2 keeps a `Group`),
  and an opaque catch-all for every other token.
* `syn::Error` is a source span plus its message string.
* Fallible Rust functions returning `syn::Result` become `Except Err`.
* Rust methods taking `&mut self` and returning `Result<(), Error>` become
  state-passing functions returning the (possibly mutated) state together
  with `Option Err`; on `Err` the state that the method had mutated so far
  is kept, exactly like the `&mut` reference in Rust.
-/

namespace TB

/-- An opaque source location (proc-macro2 `Span`). -/
abbrev Span : Type := Nat

/-- The span `parse_quote!` / `Default::default()` attach to fabricated
tokens (proc-macro2 `Span::call_site()`). -/
def defaultSpan : Span := (0 : Nat)

/-- A syn `Ident`: textual name plus span. -/
structure Ident where
  name : String
  span : Span
deriving DecidableEq, Repr

/-- One proc-macro2 token, at the granularity `util.rs` inspects. -/
inductive Tok where
  /-- an identifier token -/
  | ident : Ident → Tok
  /-- the punctuation `!` -/
  | bang : Span → Tok
  /-- the punctuation `,` -/
  | comma : Span → Tok
  /-- the punctuation `=` -/
  | eq : Span → Tok
  /-- a parenthesized group, kept verbatim -/
  | paren : Span → List Tok → Tok
  /-- a bracketed group, kept verbatim -/
  | bracket : Span → List Tok → Tok
  /-- any other token (literals, other punctuation, …) -/
  | other : Span → String → Tok

/-- The span of a token. -/
def tokSpan : Tok → Span
  | .ident i => i.span
  | .bang sp => sp
  | .comma sp => sp
  | .eq sp => sp
  | .paren sp _ => sp
  | .bracket sp _ => sp
  | .other sp _ => sp

/-- A `syn::Error`: the span it is attached to plus its message. -/
structure Err where
  span : Span
  msg : String
deriving Repr

/-- Rust `struct KeyValue { name, eq, value }` from `util.rs`: the `=` token is
kept (its span), the value is an opaque token stream. -/
structure KeyValue where
  name : Ident
  eqSpan : Span
  value : List Tok

/-- Rust `struct SubAttr { name, paren, args }` from `util.rs`. -/
structure SubAttr where
  name : Ident
  parenSpan : Span
  args : List Tok

/-- Rust `enum AttrArg` from `util.rs`: flag, key-value, nested sub-attribute, or
negation (`Not` keeps its `!` token's span and the name). -/
inductive AttrArg where
  | Flag : Ident → AttrArg
  | KeyValue : KeyValue → AttrArg
  | Sub : SubAttr → AttrArg
  | Not : Span → Ident → AttrArg

/-- Rust `AttrArg::name`. -/
def AttrArg.name : AttrArg → Ident
  | .Flag n => n
  | .KeyValue kv => kv.name
  | .Sub s => s.name
  | .Not _ n => n

/-- Rust `format!("{:?}", s)` on a `String`: the name in double quotes. -/
def quoted (s : String) : String := "\"" ++ s ++ "\""

/-- Rust `AttrArg::incorrect_type`: the shape-mismatch error.  The message names
the argument's identifier (debug-quoted) and the shape the argument was
written in; `Error::new_spanned(self, …)` is modelled as attaching the error
at the argument's name. -/
def AttrArg.incorrect_type (a : AttrArg) : Err :=
  { span := a.name.span
    msg :=
      match a with
      | .Flag n => quoted n.name ++ " is not supported as a flag"
      | .KeyValue kv => quoted kv.name.name ++ " is not supported as key-value"
      | .Sub s => quoted s.name.name ++ " is not supported as nested attribute"
      | .Not _ n => quoted n.name ++ " cannot be nullified" }

/-- Rust `AttrArg::flag`. -/
def AttrArg.flag : AttrArg → Except Err Ident
  | .Flag n => .ok n
  | a => .error a.incorrect_type

/-- Rust `AttrArg::key_value`. -/
def AttrArg.key_value : AttrArg → Except Err TB.KeyValue
  | .KeyValue kv => .ok kv
  | a => .error a.incorrect_type

/-- Rust `AttrArg::key_value_or_not`. -/
def AttrArg.key_value_or_not : AttrArg → Except Err (Option TB.KeyValue)
  | .KeyValue kv => .ok (some kv)
  | .Not _ _ => .ok none
  | a => .error a.incorrect_type

/-- Rust `AttrArg::sub_attr`. -/
def AttrArg.sub_attr : AttrArg → Except Err SubAttr
  | .Sub s => .ok s
  | a => .error a.incorrect_type

/-- Rust `AttrArg::apply_flag_to_field(self, field, caption)`.  The Rust method
mutates `field : &mut Option<Span>`; here the new field value is returned
together with the optional error (the field is returned unchanged on the
error paths, as in Rust). -/
def AttrArg.apply_flag_to_field (a : AttrArg) (field : Option Span) (caption : String) :
    Option Span × Option Err :=
  match a with
  | .Flag f =>
    match field with
    | none => (some f.span, none)
    | some sp => (some sp, some ⟨f.span, "Illegal setting - field is already " ++ caption⟩)
  | .Not _ _ => (none, none)
  | a => (field, some a.incorrect_type)

/-- Rust `impl Parse for AttrArg` from `util.rs`, over one token stream.  Returns
the parsed argument together with the tokens it did **not** consume.
Faithful points: a leading `!` starts a negation; after the name, a comma or
end of input means a flag; a parenthesized group means a sub-attribute whose
inner tokens are taken verbatim; an `=` means a key-value whose value is
`input.parse::<TokenStream>()` — syn's `TokenStream` parser consumes *every*
remaining token of the stream, so nothing is left; anything else is the
grammar error. -/
def parseAttrArg : List Tok → Except Err (AttrArg × List Tok)
  | .bang bsp :: rest =>
    match rest with
    | .ident n :: rest2 => .ok (.Not bsp n, rest2)
    | t :: _ => .error ⟨tokSpan t, "expected identifier"⟩
    | [] => .error ⟨bsp, "expected identifier"⟩
  | .ident n :: rest =>
    match rest with
    | [] => .ok (.Flag n, [])
    | .comma sp :: rest2 => .ok (.Flag n, .comma sp :: rest2)
    | .paren sp args :: rest2 => .ok (.Sub ⟨n, sp, args⟩, rest2)
    | .eq sp :: rest2 => .ok (.KeyValue ⟨n, sp, rest2⟩, [])
    | t :: _ => .error ⟨tokSpan t, "expected !<ident>, <ident>=<value> or <ident>(…)"⟩
  | t :: _ => .error ⟨tokSpan t, "expected identifier"⟩
  | [] => .error ⟨defaultSpan, "expected identifier"⟩

/-- Rust `impl ToTokens for AttrArg` (together with the `ToTokens` instances of
`KeyValue` and `SubAttr`). -/
def attrArgToTokens : AttrArg → List Tok
  | .Flag n => [.ident n]
  | .KeyValue kv => .ident kv.name :: .eq kv.eqSpan :: kv.value
  | .Sub s => [.ident s.name, .paren s.parenSpan s.args]
  | .Not bsp n => [.bang bsp, .ident n]

/-- Rust `Punctuated::<AttrArg, Token![,]>::parse_terminated`, fuel-indexed.
The fuel only bounds the recursion; `parse_terminated` below supplies enough
for any input. -/
def parseTerminatedFuel : Nat → List Tok → Except Err (List AttrArg)
  | _, [] => .ok []
  | 0, t :: _ => .error ⟨tokSpan t, "out of fuel"⟩
  | fuel + 1, ts =>
    match parseAttrArg ts with
    | .error e => .error e
    | .ok (a, rest) =>
      match rest with
      | [] => .ok [a]
      | .comma _ :: rest2 =>
        match parseTerminatedFuel fuel rest2 with
        | .ok as => .ok (a :: as)
        | .error e => .error e
      | t :: _ => .error ⟨tokSpan t, "expected `,`"⟩

/-- Rust `Punctuated::<AttrArg, Token![,]>::parse_terminated` over a token
stream: a comma-separated list of `AttrArg`s, trailing comma permitted. -/
def parse_terminated (ts : List Tok) : Except Err (List AttrArg) :=
  parseTerminatedFuel (ts.length + 1) ts

/-- Rust `syn::PathArguments` (the payloads are irrelevant to this code, which
only compares against `PathArguments::None`). -/
inductive PathArguments where
  | none
  | angleBracketed
  | parenthesized
deriving DecidableEq, Repr

/-- Rust `syn::PathSegment`. -/
structure PathSegment where
  ident : Ident
  arguments : PathArguments
deriving DecidableEq, Repr

/-- Rust `syn::Path`: an optional leading `::` plus segments. -/
structure Path where
  leading_colon : Bool
  segments : List PathSegment
deriving DecidableEq, Repr

/-- Rust `path_to_single_string` from `util.rs`: `Some(name)` exactly for an
unqualified single-segment path whose segment carries no arguments. -/
def path_to_single_string (path : Path) : Option String :=
  if path.leading_colon then none
  else
    match path.segments with
    | [segment] => if segment.arguments = PathArguments.none then some segment.ident.name else none
    | _ => none

/-- Rust `syn::Path::get_ident`: the path as a plain identifier, when it is one
(no leading `::`, one segment, no arguments). -/
def Path.get_ident (path : Path) : Option Ident :=
  if path.leading_colon then none
  else
    match path.segments with
    | [segment] => if segment.arguments = PathArguments.none then some segment.ident else none
    | _ => none

/-- Rust `syn::Path::is_ident`. -/
def Path.is_ident (path : Path) (s : String) : Bool :=
  match path.get_ident with
  | some i => i.name = s
  | none => false

/-- A convenient unqualified single-segment path. -/
def singlePath (i : Ident) : Path :=
  { leading_colon := false, segments := [{ ident := i, arguments := .none }] }

/-- Rust `syn::MetaList`: the attribute path, the delimiter's span, and the inner
tokens. -/
structure MetaList where
  path : Path
  span : Span
  tokens : List Tok

/-- Rust `syn::Meta`, at the granularity `util.rs` inspects: a list form
`path(…)`, or any other form (`Meta::Path`, `Meta::NameValue`) collapsed,
keeping only its path and span. -/
inductive Meta where
  | list : MetaList → Meta
  | otherMeta : Path → Span → Meta

/-- Rust `syn::Attribute` (only its `meta` matters to this code). -/
structure Attribute where
  meta : Meta

/-- Rust `syn::Attribute::path`. -/
def Attribute.path (a : Attribute) : Path :=
  match a.meta with
  | .list l => l.path
  | .otherMeta p _ => p

/-- The `ApplyMeta` trait's required method, passed explicitly as a
function: given the current state and one argument, produce the new state
and an optional error (the state reflects any mutations the method made
before failing). -/
def ApplyFn (σ : Type) : Type := σ → AttrArg → σ × Option Err

/-- The application loop shared by `apply_sub_attr` and
`apply_subsections`: `for expr in exprs { self.apply_meta(expr)?; }` —
left-to-right, stopping at the first failure, keeping earlier mutations. -/
def applyAll {σ : Type} (f : ApplyFn σ) : σ → List AttrArg → σ × Option Err
  | s, [] => (s, none)
  | s, a :: rest =>
    match f s a with
    | (s2, none) => applyAll f s2 rest
    | (s2, some e) => (s2, some e)

/-- Rust `ApplyMeta::apply_subsections` from `util.rs`: an empty body is the
`Expected builder(…)` error; otherwise the whole body is parsed as a
comma-separated list of `AttrArg` first (a parse error leaves the state
untouched), then each argument is applied in order. -/
def apply_subsections {σ : Type} (f : ApplyFn σ) (s : σ) (list : MetaList) : σ × Option Err :=
  if list.tokens.isEmpty then (s, some ⟨list.span, "Expected builder(…)"⟩)
  else
    match parse_terminated list.tokens with
    | .error e => (s, some e)
    | .ok exprs => applyAll f s exprs

/-- Rust `ApplyMeta::apply_attr` from `util.rs`. -/
def apply_attr {σ : Type} (f : ApplyFn σ) (s : σ) (attr : Attribute) : σ × Option Err :=
  match attr.meta with
  | .list l => apply_subsections f s l
  | .otherMeta _ sp => (s, some ⟨sp, "Expected builder(…)"⟩)

/-- Rust `syn::Expr`, restricted to the distinctions `MutatorAttribute::apply_meta`
makes: a bracketed array expression with its elements, a path expression, or
any other expression (collapsed, keeping its span). -/
inductive Expr where
  | array : Span → List Expr → Expr
  | exprPath : Span → Path → Expr
  | otherExpr : Span → Expr

/-- The span of an expression. -/
def Expr.span : Expr → Span
  | .array sp _ => sp
  | .exprPath sp _ => sp
  | .otherExpr sp => sp

/-- Split a token stream at its top-level commas (proc-macro2 groups are
single tokens here, so commas inside groups are never split points). -/
def splitCommas : List Tok → List (List Tok)
  | [] => [[]]
  | .comma _ :: rest => [] :: splitCommas rest
  | t :: rest =>
    match splitCommas rest with
    | c :: cs => (t :: c) :: cs
    | [] => [[t]]

/-- Drop the empty chunk a trailing comma leaves behind. -/
def trimTrailingEmpty (cs : List (List Tok)) : List (List Tok) :=
  match cs.getLast? with
  | some [] => cs.dropLast
  | _ => cs

/-- Modelled behaviour of syn's `Expr` parser on one array element: a single
identifier is a path expression, an empty element is a parse error, and any
other element is some non-path expression (collapsed to `otherExpr`; which
non-path expression it is never matters to this code, which only pattern
matches on `Expr::Path`). -/
def parseExprAtom : List Tok → Except Err Expr
  | [.ident i] => .ok (.exprPath i.span (singlePath i))
  | [] => .error ⟨defaultSpan, "unexpected end of input, expected an expression"⟩
  | t :: _ => .ok (.otherExpr (tokSpan t))

/-- Modelled behaviour of `syn::parse2::<Expr>` on the token streams this
code feeds it: a single bracketed group is `Expr::Array` of its
comma-separated elements (trailing comma permitted), and any other stream is
handled as one element. -/
def parseExpr : List Tok → Except Err Expr
  | [.bracket sp inner] =>
    match (trimTrailingEmpty (splitCommas inner)).mapM parseExprAtom with
    | .ok elems => .ok (.array sp elems)
    | .error e => .error e
  | ts => parseExprAtom ts

/-- Rust `struct MutatorAttribute { requires: HashSet<Ident> }`.  syn `Ident`s
hash and compare by name (spans excluded), so the set is a `Finset` of
names. -/
structure MutatorAttribute where
  requires : Finset String
deriving DecidableEq

instance : Inhabited MutatorAttribute := ⟨⟨∅⟩⟩

/-- Rust `impl ApplyMeta for MutatorAttribute`, `apply_meta`: only the key
`requires` is accepted; its value must be a key-value whose payload parses
as an array expression of plain identifiers, which are inserted into the
set. -/
def MutatorAttribute.apply_meta (m : MutatorAttribute) (expr : AttrArg) :
    MutatorAttribute × Option Err :=
  if expr.name.name ≠ "requires" then
    (m, some ⟨expr.name.span, "Only `requires` is supported"⟩)
  else
    match expr.key_value with
    | .error e => (m, some e)
    | .ok kv =>
      match parseExpr kv.value with
      | .error e => (m, some e)
      | .ok (.array _ elems) =>
        match elems.mapM (fun e =>
            match e with
            | .exprPath _ path =>
              match path.get_ident with
              | some i => Except.ok i
              | none => Except.error (⟨e.span, "Expected field name"⟩ : Err)
            | e => Except.error (⟨e.span, "Expected field name"⟩ : Err)) with
        | .error e => (m, some e)
        | .ok ids =>
          ({ requires := ids.foldl (fun s i => insert i.name s) m.requires }, none)
      | .ok e => (m, some ⟨e.span, "Only list of field names [field1, field2, …] supported"⟩)

/-- A syn `Type`, opaque to this code: mutator parameter types are only ever
cloned, never inspected. -/
structure Ty where
  repr : String
deriving DecidableEq, Repr

/-- Rust `syn::ReturnType`. -/
inductive ReturnType where
  | default
  | ty : Ty → ReturnType
deriving DecidableEq, Repr

/-- Rust `syn::PatIdent`: `by_ref` / `mut` markers, the identifier, and whether a
`@ subpattern` is attached (its contents are never inspected). -/
structure PatIdent where
  by_ref : Bool
  mutability : Bool
  ident : Ident
  hasSubpat : Bool
deriving DecidableEq, Repr

/-- Rust `syn::Pat`, at the granularity `pat_to_ident` inspects: an identifier
pattern, or any other pattern (tuple, wildcard, …) collapsed to its span. -/
inductive Pat where
  | patIdent : PatIdent → Pat
  | otherPat : Span → Pat
deriving DecidableEq, Repr

/-- Rust `syn::FnArg`: a receiver (`self` in some form: the model keeps whether
it is taken by reference and whether mutably) or a typed pattern
parameter.  Each carries its span (`Spanned::span`). -/
inductive FnArg where
  | receiver : Bool → Bool → Span → FnArg
  | typed : Pat → Ty → Span → FnArg
deriving DecidableEq, Repr

/-- Rust `syn::Signature`: name, parameter list (with the parenthesis span used
for the empty-parameter-list error), and return type. -/
structure Signature where
  ident : Ident
  parenSpan : Span
  inputs : List FnArg
  output : ReturnType
deriving DecidableEq, Repr

/-- Rust `syn::ItemFn`: outer attributes, signature, and an opaque body. -/
structure ItemFn where
  attrs : List Attribute
  sig : Signature
  blockId : Nat

/-- Rust `struct Mutator` from `util.rs` (`fun` is a Lean keyword, so the field
`fun` is named `func`). -/
structure Mutator where
  func : ItemFn
  required_fields : Finset String

/-- The attribute-scanning loop of `impl Parse for Mutator`: walk the
attribute list in order; an attribute whose path is the single identifier
`mutator` is applied to the accumulated `MutatorAttribute` and removed from
the list, every other attribute is kept; the first application error
aborts. -/
def scanAttrs : List Attribute → MutatorAttribute → Except Err (List Attribute × MutatorAttribute)
  | [], st => .ok ([], st)
  | attr :: rest, st =>
    if attr.path.is_ident "mutator" then
      match apply_attr MutatorAttribute.apply_meta st attr with
      | (st2, none) => scanAttrs rest st2
      | (_, some e) => .error e
    else
      match scanAttrs rest st with
      | .ok (kept, st2) => .ok (attr :: kept, st2)
      | .error e => .error e

/-- Rust `impl Parse for Mutator` from `util.rs`, starting from the already
syn-parsed `ItemFn`: process and strip `#[mutator(…)]` attributes, then
require the first parameter to be a receiver (`FnArg::Receiver`) — any
receiver is accepted and overwritten with `parse_quote!(&mut self)`; if the
first parameter is not a receiver (or there is none), fail with the error
attached at the first parameter's span, or at the parameter list's
parenthesis span when there are no parameters. -/
def parseMutator (f : ItemFn) : Except Err Mutator :=
  match scanAttrs f.attrs default with
  | .error e => .error e
  | .ok (attrs2, attrState) =>
    match f.sig.inputs with
    | FnArg.receiver _ _ _ :: rest =>
      .ok
        { func :=
            { f with
              attrs := attrs2
              sig := { f.sig with inputs := FnArg.receiver true true defaultSpan :: rest } }
          required_fields := attrState.requires }
    | first :: _ =>
      .error ⟨(match first with | .receiver _ _ sp => sp | .typed _ _ sp => sp),
        "mutator needs to take a reference to `self`"⟩
    | [] => .error ⟨f.sig.parenSpan, "mutator needs to take a reference to `self`"⟩

/-- Rust `pat_to_ident` from `util.rs`: an identifier pattern yields its own
identifier (whatever its `ref` / `mut` / subpattern decorations); any other
pattern yields `format_ident!("__{i}")` — the name `__i` for the zero-based
parameter position `i` — spanned at the pattern. -/
def pat_to_ident (i : Nat) (pat : Pat) : Ident :=
  match pat with
  | .patIdent p => p.ident
  | .otherPat sp => { name := "__" ++ Nat.repr i, span := sp }

/-- Rust `Mutator::outer_sig` from `util.rs`: clone the signature, replace the
return type with `output`, and rebuild every parameter by position — a
receiver becomes `parse_quote!(self)` (a plain by-value receiver), and a
typed parameter keeps its type but has its pattern replaced by the bare
identifier pattern `pat_to_ident(i, pat)`. -/
def Mutator.outer_sig (m : Mutator) (output : Ty) : Signature :=
  let sig := m.func.sig
  { sig with
    output := ReturnType.ty output
    inputs :=
      sig.inputs.enum.map fun p =>
        match p.2 with
        | .receiver _ _ _ => FnArg.receiver false false defaultSpan
        | .typed pat ty sp =>
          FnArg.typed (Pat.patIdent
            { by_ref := false
              mutability := false
              ident := pat_to_ident p.1 pat
              hasSubpat := false }) ty sp }

/-- Rust `Mutator::arguments` from `util.rs`: the names to forward to the inner
function — every non-receiver parameter's `pat_to_ident` at its position in
the full (receiver-included) enumeration, in order. -/
def Mutator.arguments (m : Mutator) : List Ident :=
  m.func.sig.inputs.enum.filterMap fun p =>
    match p.2 with
    | .receiver _ _ _ => none
    | .typed pat _ _ => some (pat_to_ident p.1 pat)

/-- The name of an outward-facing parameter built by `outer_sig`: a typed
parameter whose pattern is a plain identifier pattern has that identifier as
its name; receivers (and non-identifier patterns) have none. -/
def paramName : FnArg → Option Ident
  | .typed (.patIdent p) _ _ => some p.ident
  | _ => none

/-- A sample concrete type. -/
def tyI32 : Ty := { repr := "i32" }

/-- A sample concrete tuple type. -/
def tyPair : Ty := { repr := "(i32, i32)" }

/-- A sample output type for `outer_sig`. -/
def tyOut : Ty := { repr := "Builder" }

/-- A mutator declaration `fn m(&mut self, (a, b): (i32, i32), __1: i32)`:
its second parameter is a non-identifier (tuple) pattern at position 1, and
its third parameter is literally named `__1`. -/
def collideFn : ItemFn :=
  { attrs := []
    sig :=
      { ident := { name := "m", span := 10 }
        parenSpan := 11
        inputs :=
          [FnArg.receiver true true 12,
           FnArg.typed (Pat.otherPat 13) tyPair 13,
           FnArg.typed (Pat.patIdent ⟨false, false, ⟨"__1", 14⟩, false⟩) tyI32 14]
        output := ReturnType.default }
    blockId := 0 }

/-- The `Mutator` that parsing `collideFn` produces. -/
def collideMutator : Mutator :=
  { func :=
      { attrs := []
        sig :=
          { ident := { name := "m", span := 10 }
            parenSpan := 11
            inputs :=
              [FnArg.receiver true true defaultSpan,
               FnArg.typed (Pat.otherPat 13) tyPair 13,
               FnArg.typed (Pat.patIdent ⟨false, false, ⟨"__1", 14⟩, false⟩) tyI32 14]
            output := ReturnType.default }
        blockId := 0 }
    required_fields := ∅ }

/-- A mutator declaration `fn m(self, x: i32)` whose receiver is taken by
value — a receiver, but not a by-reference-mutable one. -/
def byValueSelfFn : ItemFn :=
  { attrs := []
    sig :=
      { ident := { name := "m", span := 20 }
        parenSpan := 21
        inputs :=
          [FnArg.receiver false false 22,
           FnArg.typed (Pat.patIdent ⟨false, false, ⟨"x", 23⟩, false⟩) tyI32 23]
        output := ReturnType.default }
    blockId := 1 }

/-- The `Mutator` that parsing `byValueSelfFn` produces: no error, and the
by-value receiver has been silently rewritten to `&mut self`. -/
def byValueSelfMutator : Mutator :=
  { func :=
      { attrs := []
        sig :=
          { ident := { name := "m", span := 20 }
            parenSpan := 21
            inputs :=
              [FnArg.receiver true true defaultSpan,
               FnArg.typed (Pat.patIdent ⟨false, false, ⟨"x", 23⟩, false⟩) tyI32 23]
            output := ReturnType.default }
        blockId := 1 }
    required_fields := ∅ }

/-- A declaration `fn free(x: i32)` with no receiver at all. -/
def noReceiverFn : ItemFn :=
  { attrs := []
    sig :=
      { ident := { name := "free", span := 30 }
        parenSpan := 31
        inputs :=
          [FnArg.typed (Pat.patIdent ⟨false, false, ⟨"x", 32⟩, false⟩) tyI32 32]
        output := ReturnType.default }
    blockId := 2 }

/-- The attribute body `foo = 1, bar`: a key-value argument followed by a
flag argument, under the intended comma-boundary reading. -/
def kvBoundaryTokens : List Tok :=
  [Tok.ident { name := "foo", span := 0 }, Tok.eq 1, Tok.other 2 "1", Tok.comma 3,
   Tok.ident { name := "bar", span := 4 }]

/-- A concrete `ApplyMeta` implementer used to exercise the generic
`apply_subsections` loop: it logs each applied argument's name, and fails on
the name `boom`. -/
def logApply : ApplyFn (List String) := fun s a =>
  if a.name.name = "boom" then (s, some ⟨a.name.span, "boom"⟩) else (s ++ [a.name.name], none)

/-- The attribute body `x, y, boom, z` wrapped as a `MetaList`. -/
def logMetaList : MetaList :=
  { path := singlePath { name := "builder", span := 0 }
    span := 0
    tokens :=
      [Tok.ident { name := "x", span := 1 }, Tok.comma 2, Tok.ident { name := "y", span := 3 },
       Tok.comma 4, Tok.ident { name := "boom", span := 5 }, Tok.comma 6,
       Tok.ident { name := "z", span := 7 }] }

/-- A `MetaList` with an empty body. -/
def emptyMetaList : MetaList :=
  { path := singlePath { name := "builder", span := 0 }, span := 9, tokens := [] }

/-- C6: for every `AttrArg` value (any of the four variants), emitting it
back to tokens via its `ToTokens` implementation and re-parsing the emitted
stream as an `AttrArg` succeeds, consumes the whole stream, and yields a
structurally equal `AttrArg` (same variant, same identifier, same payload
tokens and spans). -/
theorem attrArg_roundtrip (a : AttrArg) : parseAttrArg (attrArgToTokens a) = .ok (a, []) := by
  cases a <;> rfl

/-- C7: each narrowing accessor `flag` / `key_value` / `sub_attr` returns
the payload exactly on its own variant and otherwise fails with the
shape-mismatch error `incorrect_type`; `key_value_or_not` returns the
payload on `KeyValue`, `none` on `Not`, and the shape-mismatch error on
`Flag` and `Sub`; and `incorrect_type` names the argument's identifier
(debug-quoted) and the shape it was used as. -/
theorem narrowing_accessors (n : Ident) (kv : KeyValue) (s : SubAttr) (bsp : Span) :
    ((AttrArg.Flag n).flag = .ok n ∧
      (AttrArg.KeyValue kv).flag = .error (AttrArg.KeyValue kv).incorrect_type ∧
      (AttrArg.Sub s).flag = .error (AttrArg.Sub s).incorrect_type ∧
      (AttrArg.Not bsp n).flag = .error (AttrArg.Not bsp n).incorrect_type) ∧
    ((AttrArg.KeyValue kv).key_value = .ok kv ∧
      (AttrArg.Flag n).key_value = .error (AttrArg.Flag n).incorrect_type ∧
      (AttrArg.Sub s).key_value = .error (AttrArg.Sub s).incorrect_type ∧
      (AttrArg.Not bsp n).key_value = .error (AttrArg.Not bsp n).incorrect_type) ∧
    ((AttrArg.Sub s).sub_attr = .ok s ∧
      (AttrArg.Flag n).sub_attr = .error (AttrArg.Flag n).incorrect_type ∧
      (AttrArg.KeyValue kv).sub_attr = .error (AttrArg.KeyValue kv).incorrect_type ∧
      (AttrArg.Not bsp n).sub_attr = .error (AttrArg.Not bsp n).incorrect_type) ∧
    ((AttrArg.KeyValue kv).key_value_or_not = .ok (some kv) ∧
      (AttrArg.Not bsp n).key_value_or_not = .ok none ∧
      (AttrArg.Flag n).key_value_or_not = .error (AttrArg.Flag n).incorrect_type ∧
      (AttrArg.Sub s).key_value_or_not = .error (AttrArg.Sub s).incorrect_type) ∧
    ((AttrArg.Flag n).incorrect_type
        = ⟨n.span, quoted n.name ++ " is not supported as a flag"⟩ ∧
      (AttrArg.KeyValue kv).incorrect_type
        = ⟨kv.name.span, quoted kv.name.name ++ " is not supported as key-value"⟩ ∧
      (AttrArg.Sub s).incorrect_type
        = ⟨s.name.span, quoted s.name.name ++ " is not supported as nested attribute"⟩ ∧
      (AttrArg.Not bsp n).incorrect_type
        = ⟨n.span, quoted n.name ++ " cannot be nullified"⟩) :=
  ⟨⟨rfl, rfl, rfl, rfl⟩, ⟨rfl, rfl, rfl, rfl⟩, ⟨rfl, rfl, rfl, rfl⟩, ⟨rfl, rfl, rfl, rfl⟩,
    ⟨rfl, rfl, rfl, rfl⟩⟩

/-- C9: `path_to_single_string` returns the segment's name exactly when the
path has no leading qualifier, has exactly one segment, and that segment
carries no generic arguments; on every other path it returns `none`. -/
theorem path_to_single_string_spec (p : Path) (s : String) :
    path_to_single_string p = some s ↔
      p.leading_colon = false ∧
        ∃ seg, p.segments = [seg] ∧ seg.arguments = PathArguments.none ∧ s = seg.ident.name := by
  obtain ⟨lc, segs⟩ := p
  cases lc
  · cases segs with
    | nil => simp [path_to_single_string]
    | cons seg rest =>
      cases rest with
      | nil =>
        by_cases h : seg.arguments = PathArguments.none
        · simp [path_to_single_string, h, eq_comm]
        · simp [path_to_single_string, h, eq_comm]
          exact fun h2 => absurd h2.symm h
      | cons seg2 rest2 => simp [path_to_single_string]
  · simp [path_to_single_string]

/-- Witness for C9 at a concrete path. -/
theorem path_to_single_string_spec_witness :
    path_to_single_string (singlePath ⟨"x", 0⟩) = some "x" :=
  (path_to_single_string_spec (singlePath ⟨"x", 0⟩) "x").mpr
    ⟨rfl, ⟨⟨⟨"x", 0⟩, PathArguments.none⟩, rfl, rfl, rfl⟩⟩

/-- C10: `apply_flag_to_field` on a `Flag` sets an unset field to the
flag's span and fails with the already-set error on a set field (leaving it
set); on a `Not` it resets the field to unset whatever it was; on
`KeyValue` and `Sub` it fails with the shape-mismatch error and leaves the
field unchanged. -/
theorem apply_flag_to_field_spec (n : Ident) (sp bsp : Span) (caption : String)
    (kv : KeyValue) (s : SubAttr) (field : Option Span) :
    (AttrArg.Flag n).apply_flag_to_field none caption = (some n.span, none) ∧
    (AttrArg.Flag n).apply_flag_to_field (some sp) caption
      = (some sp, some ⟨n.span, "Illegal setting - field is already " ++ caption⟩) ∧
    (AttrArg.Not bsp n).apply_flag_to_field field caption = (none, none) ∧
    (AttrArg.KeyValue kv).apply_flag_to_field field caption
      = (field, some (AttrArg.KeyValue kv).incorrect_type) ∧
    (AttrArg.Sub s).apply_flag_to_field field caption
      = (field, some (AttrArg.Sub s).incorrect_type) :=
  ⟨rfl, rfl, rfl, rfl, rfl⟩

/-- C4, behaviour of the code at the failing input: on the attribute body
`foo = 1, bar` the key-value branch consumes the comma and the following
`bar` into the value of `foo` — the value is not cut at the top-level
separator, and the whole body parses as a single argument. -/
theorem keyValue_consumes_past_separator :
    parseAttrArg kvBoundaryTokens
      = .ok (.KeyValue ⟨⟨"foo", 0⟩, 1, [Tok.other 2 "1", Tok.comma 3, Tok.ident ⟨"bar", 4⟩]⟩,
          []) ∧
    parse_terminated kvBoundaryTokens
      = .ok [.KeyValue ⟨⟨"foo", 0⟩, 1, [Tok.other 2 "1", Tok.comma 3, Tok.ident ⟨"bar", 4⟩]⟩] :=
  ⟨rfl, rfl⟩

/-- Running the application loop over a concatenation: when the prefix runs
without error, the loop continues over the rest from the prefix's final
state. -/
theorem applyAll_append {σ : Type} (f : ApplyFn σ) (pre rest : List AttrArg) :
    ∀ s s2, applyAll f s pre = (s2, none) → applyAll f s (pre ++ rest) = applyAll f s2 rest := by
  induction pre with
  | nil =>
    intro s s2 h
    simp only [applyAll] at h
    injection h with h1 h2
    subst h1
    rfl
  | cons a pre ih =>
    intro s s2 h
    simp only [List.cons_append, applyAll] at h ⊢
    rcases hfa : f s a with ⟨s3, oe⟩
    rw [hfa] at h
    cases oe with
    | none => exact ih s3 s2 h
    | some e => exact absurd (congrArg Prod.snd h) (by simp)

/-- C8: applying an attribute body through `apply_subsections` fails
immediately (state untouched) when the body is empty; when non-empty and
the body parses as a comma-separated argument list, the arguments are
applied left to right: the first failing application stops the run, keeping
the effects of the earlier successful applications and processing no later
element, and a run with no failing application returns the final state. -/
theorem apply_subsections_spec {σ : Type} (f : ApplyFn σ) (s : σ) (list : MetaList) :
    (list.tokens = [] →
      apply_subsections f s list = (s, some ⟨list.span, "Expected builder(…)"⟩)) ∧
    (∀ pre a post s2 s3 e,
      list.tokens ≠ [] →
      parse_terminated list.tokens = .ok (pre ++ a :: post) →
      applyAll f s pre = (s2, none) →
      f s2 a = (s3, some e) →
      apply_subsections f s list = (s3, some e)) ∧
    (∀ args s2,
      list.tokens ≠ [] →
      parse_terminated list.tokens = .ok args →
      applyAll f s args = (s2, none) →
      apply_subsections f s list = (s2, none)) := by
  refine ⟨?_, ?_, ?_⟩
  · intro h0
    simp [apply_subsections, h0]
  · intro pre a post s2 s3 e h0 hp hpre hfail
    rw [apply_subsections, if_neg (by simpa using h0), hp]
    show applyAll f s (pre ++ a :: post) = (s3, some e)
    rw [applyAll_append f pre (a :: post) s s2 hpre]
    simp only [applyAll]
    rw [hfail]
  · intro args s2 h0 hp hall
    rw [apply_subsections, if_neg (by simpa using h0), hp]
    exact hall

/-- Witness for C8: on the body `x, y, boom, z` with an applier that logs
names and fails on `boom`, the first two effects persist, the error is the
third element's, and `z` is never processed; the empty body fails with the
expected-argument-list error. -/
theorem apply_subsections_spec_witness :
    apply_subsections logApply ([] : List String) logMetaList
      = (["x", "y"], some ⟨5, "boom"⟩) ∧
    apply_subsections logApply ([] : List String) emptyMetaList
      = (([] : List String), some ⟨9, "Expected builder(…)"⟩) := by
  constructor
  · exact (apply_subsections_spec logApply [] logMetaList).2.1
      [.Flag ⟨"x", 1⟩, .Flag ⟨"y", 3⟩] (.Flag ⟨"boom", 5⟩) [.Flag ⟨"z", 7⟩]
      ["x", "y"] ["x", "y"] ⟨5, "boom"⟩ (fun h => List.noConfusion h) rfl rfl rfl
  · exact (apply_subsections_spec logApply [] emptyMetaList).1 rfl

/-- Indexing an enumerate-then-map. -/
theorem getElem?_enumFrom_map {α β : Type} (f : Nat × α → β) (l : List α) (n i : Nat) :
    ((List.enumFrom n l).map f)[i]? = (l[i]?).map fun a => f (n + i, a) := by
  rw [List.getElem?_map, List.getElem?_enumFrom, Option.map_map]
  rfl

/-- C1 (amended): `outer_sig` replaces the return type with the given
output type; the parameter count and order are preserved; the receiver
becomes the plain by-value `self`; every typed parameter keeps its declared
type (and span) and has its pattern replaced by the bare identifier pattern
`pat_to_ident i pat` — the parameter's own identifier when its pattern is
an identifier pattern, and otherwise the name `__i` synthesized from the
parameter's zero-based position `i`, spanned at the pattern.  (Nothing
guarantees the synthesized name is unique within the signature: see the
counterexample.) -/
theorem outer_sig_spec (m : Mutator) (out : Ty) :
    (m.outer_sig out).output = ReturnType.ty out ∧
    (m.outer_sig out).inputs.length = m.func.sig.inputs.length ∧
    (∀ i : Nat,
      (m.outer_sig out).inputs[i]? =
        (m.func.sig.inputs[i]?).map fun input =>
          match input with
          | FnArg.receiver _ _ _ => FnArg.receiver false false defaultSpan
          | FnArg.typed pat ty sp =>
            FnArg.typed (Pat.patIdent ⟨false, false, pat_to_ident i pat, false⟩) ty sp) ∧
    (∀ (i : Nat) (p : PatIdent), pat_to_ident i (Pat.patIdent p) = p.ident) ∧
    (∀ (i : Nat) (sp : Span),
      pat_to_ident i (Pat.otherPat sp) = ⟨"__" ++ Nat.repr i, sp⟩) := by
  refine ⟨rfl, ?_, ?_, fun i p => rfl, fun i sp => rfl⟩
  · show ((List.enumFrom 0 m.func.sig.inputs).map _).length = _
    rw [List.length_map, List.enumFrom_length]
  · intro i
    show ((List.enumFrom 0 m.func.sig.inputs).map _)[i]? = _
    rw [getElem?_enumFrom_map]
    simp only [Nat.zero_add]

/-- C1 counterexample: parsing `collideFn` — which has a tuple-pattern
parameter at position 1 and a parameter literally named `__1` at
position 2 — succeeds, and the outer signature then contains the parameter
name `__1` twice: the position-synthesized name collides with a declared
parameter name, so it is not unique within the signature. -/
theorem outer_sig_collision :
    parseMutator collideFn = .ok collideMutator ∧
    ((collideMutator.outer_sig tyOut).inputs.filterMap paramName).map Ident.name
      = ["__1", "__1"] ∧
    ¬ ((((collideMutator.outer_sig tyOut).inputs.filterMap paramName).map Ident.name).Nodup) :=
  ⟨rfl, rfl, by decide⟩

/-- C2: the forwarding argument list `arguments` is exactly the list of
non-receiver parameter names appearing in `outer_sig`, in declaration
order — for any output type, since the names do not depend on it. -/
theorem arguments_match_outer_sig (m : Mutator) (out : Ty) :
    (m.outer_sig out).inputs.filterMap paramName = m.arguments := by
  show ((List.enumFrom 0 m.func.sig.inputs).map _).filterMap paramName
      = (List.enumFrom 0 m.func.sig.inputs).filterMap _
  rw [List.filterMap_map]
  refine List.filterMap_congr ?_
  rintro ⟨i, input⟩ -
  cases input <;> rfl

/-- C3 (amended): after successful attribute processing, parsing a mutator
fails exactly when the first parameter is missing or is not a receiver at
all, with the error attached at the first parameter's span when one exists
and at the parameter list's parenthesis span otherwise; any receiver —
by-value or by-reference, mutable or not — is accepted and rewritten to the
canonical `&mut self` form. -/
theorem parseMutator_receiver_rule (f : ItemFn) (attrs2 : List Attribute)
    (st : MutatorAttribute) (h : scanAttrs f.attrs default = .ok (attrs2, st)) :
    (f.sig.inputs = [] →
      parseMutator f
        = .error ⟨f.sig.parenSpan, "mutator needs to take a reference to `self`"⟩) ∧
    (∀ pat ty sp rest, f.sig.inputs = FnArg.typed pat ty sp :: rest →
      parseMutator f = .error ⟨sp, "mutator needs to take a reference to `self`"⟩) ∧
    (∀ r mu sp rest, f.sig.inputs = FnArg.receiver r mu sp :: rest →
      parseMutator f =
        .ok
          { func :=
              { f with
                attrs := attrs2
                sig := { f.sig with inputs := FnArg.receiver true true defaultSpan :: rest } }
            required_fields := st.requires }) := by
  refine ⟨?_, ?_, ?_⟩
  · intro h0
    rw [parseMutator, h, h0]
  · intro pat ty sp rest h0
    rw [parseMutator, h, h0]
  · intro r mu sp rest h0
    rw [parseMutator, h, h0]

/-- Witness for C3 at a concrete declaration with a typed first parameter:
the receiver-shape error is attached at that parameter's span. -/
theorem parseMutator_receiver_rule_witness :
    parseMutator noReceiverFn = .error ⟨32, "mutator needs to take a reference to `self`"⟩ :=
  (parseMutator_receiver_rule noReceiverFn [] default rfl).2.1
    (Pat.patIdent ⟨false, false, ⟨"x", 32⟩, false⟩) tyI32 32 [] rfl

/-- C3 counterexample: `byValueSelfFn` takes `self` by value — a receiver,
but not a by-reference-mutable one — yet parsing succeeds (silently
rewriting the receiver to `&mut self`), so parsing does not fail whenever
the receiver is not a reference. -/
theorem parseMutator_accepts_by_value_self :
    parseMutator byValueSelfFn = .ok byValueSelfMutator := rfl

/-- C5: `requires = [a, b]` inserts exactly the names `a` and `b` into the
required-field set (a finite set, hence duplicate-free, and the same set
whatever the element order); `requires = [a, a]` yields just `a`; a
non-identifier element yields the `Expected field name` error; a
parseable non-list value yields the value error; and any key other than
`requires` yields the unknown-key error.  In every error case the set is
unchanged. -/
theorem mutator_requires_spec (a b : String) (s0 s1 s2 s3 s4 s5 : Span) :
    (MutatorAttribute.apply_meta ⟨∅⟩
        (.KeyValue ⟨⟨"requires", s0⟩, s1,
          [Tok.bracket s2 [Tok.ident ⟨a, s3⟩, Tok.comma s4, Tok.ident ⟨b, s5⟩]]⟩)
      = (⟨{a, b}⟩, none)) ∧
    (MutatorAttribute.apply_meta ⟨∅⟩
        (.KeyValue ⟨⟨"requires", s0⟩, s1,
          [Tok.bracket s2 [Tok.ident ⟨b, s3⟩, Tok.comma s4, Tok.ident ⟨a, s5⟩]]⟩)
      = (⟨{a, b}⟩, none)) ∧
    (MutatorAttribute.apply_meta ⟨∅⟩
        (.KeyValue ⟨⟨"requires", s0⟩, s1,
          [Tok.bracket s2 [Tok.ident ⟨a, s3⟩, Tok.comma s4, Tok.ident ⟨a, s5⟩]]⟩)
      = (⟨{a}⟩, none)) ∧
    (MutatorAttribute.apply_meta ⟨∅⟩
        (.KeyValue ⟨⟨"requires", s0⟩, s1,
          [Tok.bracket s2 [Tok.ident ⟨a, s3⟩, Tok.comma s4, Tok.other s5 "0"]]⟩)
      = (⟨∅⟩, some ⟨s5, "Expected field name"⟩)) ∧
    (MutatorAttribute.apply_meta ⟨∅⟩ (.KeyValue ⟨⟨"requires", s0⟩, s1, [Tok.other s2 "42"]⟩)
      = (⟨∅⟩, some ⟨s2, "Only list of field names [field1, field2, …] supported"⟩)) ∧
    (∀ (m : MutatorAttribute) (arg : AttrArg), arg.name.name ≠ "requires" →
      MutatorAttribute.apply_meta m arg
        = (m, some ⟨arg.name.span, "Only `requires` is supported"⟩)) := by
  refine ⟨?_, ?_, ?_, rfl, rfl, ?_⟩
  · exact congrArg (fun t => ((⟨t⟩ : MutatorAttribute), (none : Option Err)))
      (Finset.pair_comm b a)
  · rfl
  · exact congrArg (fun t => ((⟨t⟩ : MutatorAttribute), (none : Option Err)))
      (Finset.pair_eq_singleton a)
  · intro m arg hne
    simp [MutatorAttribute.apply_meta, hne]

/-- Witness for C5 at concrete field names and an unknown key. -/
theorem mutator_requires_spec_witness :
    MutatorAttribute.apply_meta ⟨∅⟩
        (.KeyValue ⟨⟨"requires", 0⟩, 1,
          [Tok.bracket 2 [Tok.ident ⟨"f1", 3⟩, Tok.comma 4, Tok.ident ⟨"f2", 5⟩]]⟩)
      = (⟨{"f1", "f2"}⟩, none) ∧
    MutatorAttribute.apply_meta ⟨∅⟩ (.Flag ⟨"foo", 6⟩)
      = (⟨∅⟩, some ⟨6, "Only `requires` is supported"⟩) := by
  constructor
  · exact (mutator_requires_spec "f1" "f2" 0 1 2 3 4 5).1
  · exact (mutator_requires_spec "f1" "f2" 0 1 2 3 4 5).2.2.2.2.2 ⟨∅⟩ (.Flag ⟨"foo", 6⟩)
      (by decide)

end TB
